import Mathlib

/-!
# Annotation-canvas interaction engine: shallow embedding and verification

This file embeds the interaction core of the doc-image-annotator repository
(`src/components/KonvaCanvas.jsx`, the legacy `src/components/AnnotationCanvas.jsx`
and `ExportButton`, and the `App.jsx` wiring) and proves properties of the
embedded handlers.

Modelling conventions:
* Pixel coordinates are rationals (`ℚ`); the JavaScript arithmetic used by the
  handlers is `min`, `abs`, subtraction and squaring, all exact on `ℚ`.
* `Math.sqrt` appears only in the circle radius.  The KonvaCanvas handlers use
  the radius solely in the comparison `radius > 10`, which (for the nonnegative
  result of `sqrt`) is equivalent to `dx^2 + dy^2 > 100`; the embedded
  `tempShape`/`circle` record therefore carries the squared radius `radius2`
  (lemma `sqrt_gt_iff_sq_gt` below records the equivalence).  Where the radius
  value itself is stored (legacy `AnnotationCanvas` circle commit), the radius
  is passed explicitly as an argument `r` characterised by
  `0 ≤ r ∧ r ^ 2 = dx ^ 2 + dy ^ 2`.
* The text/label elicitation collaborator (`prompt`) returns `Option String`
  (`none` = cancelled).  `Date.now()` values arrive as `Nat` inputs on events.
* Annotation ids come from the template literal ``id: `marker-${Date.now()}``
  (and `text-`/`rect-`/`circle-`).  The string is determined by the fixed type
  tag and the timestamp; since the four tags are pairwise distinct and the
  decimal rendering of a natural number is injective, two such id strings are
  equal exactly when tag and timestamp agree, so the embedding keeps the two
  components as a pair.
-/

namespace Annotator

/-- A point in canvas coordinates (`stage.getPointerPosition()`). -/
structure Pt where
  x : ℚ
  y : ℚ
deriving DecidableEq, Repr

/-- Style tag of an annotation record (`style: 'primary' | 'warning' | 'info'`). -/
inductive StyleTag where
  | primary
  | warning
  | info
deriving DecidableEq, Repr

/-- Annotation id: the type tag together with the `Date.now()` timestamp,
representing the template-literal string ```marker-${Date.now()}``` etc.
(see the header comment for why the pair is a faithful rendering). -/
structure AnnId where
  tag : String
  time : Nat
deriving DecidableEq, Repr

/-- Variant payload of an annotation record.  For `circle`, `radius2` is the
squared radius (see header comment). -/
inductive AnnKind where
  | marker (number : Nat) (label : String) (style : StyleTag)
  | text (content : String)
  | rect (width height : ℚ) (style : StyleTag)
  | circle (radius2 : ℚ) (style : StyleTag)
deriving DecidableEq, Repr

/-- One annotation record of the Annotation List (KonvaCanvas data model:
common fields `id`, `type` (the kind's constructor), `x`, `y`). -/
structure Ann where
  id : AnnId
  kind : AnnKind
  x : ℚ
  y : ℚ
deriving DecidableEq, Repr

/-- `a.type === 'marker'`. -/
def Ann.isMarker (a : Ann) : Bool :=
  match a.kind with
  | .marker _ _ _ => true
  | _ => false

/-- The active tool (`tool` prop of `KonvaCanvas`). -/
inductive Tool where
  | select
  | marker
  | text
  | rect
  | circle
deriving DecidableEq, Repr

/-- The transient draw-preview (`tempShape` state).  `handleStageMouseDown`
creates it with only `type`, `startX`, `startY`; the extent fields are
JavaScript-`undefined` (here `none`) until the first `mousemove`. -/
structure TempShape where
  type : Tool
  startX : ℚ
  startY : ℚ
  x : Option ℚ := none
  y : Option ℚ := none
  width : Option ℚ := none
  height : Option ℚ := none
  radius2 : Option ℚ := none
deriving DecidableEq, Repr

/-- The component state of `KonvaCanvas` (fields `annotations` — here `anns` —,
`selectedId`, `isDrawing`, `tempShape`). -/
structure CanvasState where
  anns : List Ann
  selectedId : Option AnnId
  isDrawing : Bool
  tempShape : Option TempShape
deriving DecidableEq, Repr

/-- Initial state: empty list, nothing selected, not drawing. -/
def initState : CanvasState :=
  { anns := [], selectedId := none, isDrawing := false, tempShape := none }

/-- JavaScript `prompt(...) || ''`: `null` (cancelled) and `''` both collapse to
the empty string; any other string passes through. -/
def jsOrEmptyString (res : Option String) : String :=
  match res with
  | some s => if s = "" then "" else s
  | none => ""

/-- JavaScript `v > c` where `v` may be `undefined` (`undefined > c` is false). -/
def jsGtOpt (v : Option ℚ) (c : ℚ) : Bool :=
  match v with
  | some q => decide (c < q)
  | none => false

/-- `Math.min` (spelled out so that concrete runs reduce in the kernel). -/
def jsMin (a b : ℚ) : ℚ :=
  if a ≤ b then a else b

/-- `Math.abs` (spelled out so that concrete runs reduce in the kernel). -/
def jsAbs (a : ℚ) : ℚ :=
  if a < 0 then -a else a

/-- `annotations.filter(a => a.type === 'marker').length`. -/
def markerCount (anns : List Ann) : Nat :=
  (anns.filter Ann.isMarker).length

/-- `handleStageMouseDown` (KonvaCanvas.jsx lines 232-278).  `onStage` is the
guard `e.target === e.target.getStage()`; `res` is the `prompt` response for
the marker/text tools; `now` is `Date.now()`. -/
def handleStageMouseDown (s : CanvasState) (tl : Tool) (onStage : Bool)
    (pos : Pt) (res : Option String) (now : Nat) : CanvasState :=
  if !onStage then s
  else
    let s1 := { s with selectedId := none }
    match tl with
    | .marker =>
        { s1 with anns := s1.anns ++
            [⟨⟨"marker", now⟩,
              .marker (markerCount s1.anns + 1) (jsOrEmptyString res) .primary,
              pos.x, pos.y⟩] }
    | .text =>
        match res with
        | some t =>
            if t = "" then s1
            else { s1 with anns := s1.anns ++ [⟨⟨"text", now⟩, .text t, pos.x, pos.y⟩] }
        | none => s1
    | .rect =>
        { s1 with isDrawing := true,
                  tempShape := some { type := .rect, startX := pos.x, startY := pos.y } }
    | .circle =>
        { s1 with isDrawing := true,
                  tempShape := some { type := .circle, startX := pos.x, startY := pos.y } }
    | .select => s1

/-- `handleStageMouseMove` (KonvaCanvas.jsx lines 280-304).  For `rect` it
recomputes the axis-aligned box via `Math.min`/`Math.abs`; for `circle` it
recomputes the (squared) radius from the Euclidean distance to the start point.
If `isDrawing` is set but `tempShape` is absent the source would fault on
`tempShape.type`; that state is unreachable (the handlers set and clear the two
together) and the embedding returns the state unchanged there. -/
def handleStageMouseMove (s : CanvasState) (pos : Pt) : CanvasState :=
  if !s.isDrawing then s
  else
    match s.tempShape with
    | none => s
    | some t =>
        match t.type with
        | .rect =>
            { s with tempShape := some { t with
                x := some (jsMin pos.x t.startX),
                y := some (jsMin pos.y t.startY),
                width := some (jsAbs (pos.x - t.startX)),
                height := some (jsAbs (pos.y - t.startY)) } }
        | .circle =>
            { s with tempShape := some { t with
                radius2 := some ((pos.x - t.startX) * (pos.x - t.startX)
                  + (pos.y - t.startY) * (pos.y - t.startY)) } }
        | _ => s

/-- `handleStageMouseUp` (KonvaCanvas.jsx lines 306-338): commit the preview iff
it beats the minimum-size threshold (rect: `width > 10 && height > 10`; circle:
`radius > 10`, embedded as `radius2 > 100`), then always clear `isDrawing` and
`tempShape`.  The inner match re-extracts the extent fields, which are present
whenever the threshold test passed (they are set together by `mousemove`). -/
def handleStageMouseUp (s : CanvasState) (now : Nat) : CanvasState :=
  if !s.isDrawing then s
  else
    let anns2 :=
      match s.tempShape with
      | none => s.anns
      | some t =>
          if t.type = Tool.rect then
            if jsGtOpt t.width 10 && jsGtOpt t.height 10 then
              match t.x, t.y, t.width, t.height with
              | some tx, some ty, some w, some h =>
                  s.anns ++ [⟨⟨"rect", now⟩, .rect w h .warning, tx, ty⟩]
              | _, _, _, _ => s.anns
            else s.anns
          else if t.type = Tool.circle then
            if jsGtOpt t.radius2 100 then
              match t.radius2 with
              | some r2 =>
                  s.anns ++ [⟨⟨"circle", now⟩, .circle r2 .warning, t.startX, t.startY⟩]
              | none => s.anns
            else s.anns
          else s.anns
    { anns := anns2, selectedId := s.selectedId, isDrawing := false, tempShape := none }

/-- `handleStageClick` (KonvaCanvas.jsx lines 225-230): a click on the empty
stage clears the selection. -/
def handleStageClick (s : CanvasState) (onStage : Bool) : CanvasState :=
  if onStage then { s with selectedId := none } else s

/-- `handleAnnotationChange` (KonvaCanvas.jsx lines 340-344) as invoked from the
shape components' `onDragEnd` (`onChange({...annotation, x, y})`): replace the
entry with matching id by the same record with updated `x`, `y`. -/
def handleAnnotationChange (s : CanvasState) (id : AnnId) (pos : Pt) : CanvasState :=
  { s with anns := s.anns.map (fun a => if a.id = id then { a with x := pos.x, y := pos.y } else a) }

/-- Individual-delete collaborator action (`AnnotationCanvas.jsx` lines 262-267,
`annotations.filter((_, index) => index !== selected)`), which removes exactly
the entry at the given index: `List.eraseIdx`. -/
def handleDelete (s : CanvasState) (i : Nat) : CanvasState :=
  { s with anns := s.anns.eraseIdx i }

/-- `handleClearAnnotations` (App.jsx lines 122-126): `setAnnotations([])`. -/
def handleClearAnnotations (s : CanvasState) : CanvasState :=
  { s with anns := [] }

/-- One externally observable input event to the interaction engine. -/
inductive Event where
  | mouseDown (tl : Tool) (onStage : Bool) (pos : Pt) (res : Option String) (now : Nat)
  | mouseMove (pos : Pt)
  | mouseUp (now : Nat)
  | stageClick (onStage : Bool)
  | dragEnd (id : AnnId) (pos : Pt)
  | removeAt (i : Nat)
  | clearAll
deriving DecidableEq, Repr

/-- Event dispatch: each event is handled by the corresponding handler. -/
def applyEvent (s : CanvasState) (e : Event) : CanvasState :=
  match e with
  | .mouseDown tl onStage pos res now => handleStageMouseDown s tl onStage pos res now
  | .mouseMove pos => handleStageMouseMove s pos
  | .mouseUp now => handleStageMouseUp s now
  | .stageClick onStage => handleStageClick s onStage
  | .dragEnd id pos => handleAnnotationChange s id pos
  | .removeAt i => handleDelete s i
  | .clearAll => handleClearAnnotations s

/-- Run a sequence of events (single-threaded, one event to completion at a
time, per the concurrency model). -/
def runEvents (s : CanvasState) (es : List Event) : CanvasState :=
  es.foldl applyEvent s

/-! ## Export engine -/

/-- A decoded base image with its intrinsic pixel dimensions. -/
structure Img where
  width : ℚ
  height : ℚ
deriving DecidableEq, Repr

/-- A mounted Konva `Stage`; its size is set from the container
(`updateSize` effect, KonvaCanvas.jsx lines 209-223). -/
structure Stage where
  width : ℚ
  height : ℚ
deriving DecidableEq, Repr

/-- The stage sized to its container (`offsetWidth`/`offsetHeight`). -/
def stageOfContainer (w h : ℚ) : Stage :=
  { width := w, height := h }

/-- Konva `stage.toDataURL({ pixelRatio: ratio })`: the encoded raster has
ratio × stage size (Konva semantics of the `pixelRatio` export option). -/
def toDataURLSize (st : Stage) (ratio : ℚ) : ℚ × ℚ :=
  (ratio * st.width, ratio * st.height)

/-- `exportCanvasToPNG` (KonvaCanvas.jsx lines 418-428): `none` (no artifact,
no download, no exception) when the stage ref is empty, otherwise the size of
the raster produced by `toDataURL({ pixelRatio: 2 })`. -/
def exportCanvasToPNG (stageRef : Option Stage) : Option (ℚ × ℚ) :=
  match stageRef with
  | none => none
  | some st => some (toDataURLSize st 2)

/-- App-level state (App.jsx): loaded image, lifted Annotation List, and the
canvas/stage ref.  When `image = none` the app renders the upload screen
without the `KonvaCanvas`, so the ref can only be populated when an image is
loaded (hypothesis `himg` of the export theorem). -/
structure AppState where
  image : Option Img
  anns : List Ann
  canvasRef : Option Stage
deriving DecidableEq, Repr

/-- `handleExport` (App.jsx lines 117-120) → `exportCanvasToPNG`: returns the
app state (export never writes state) with the artifact, if any. -/
def handleExport (app : AppState) : AppState × Option (ℚ × ℚ) :=
  (app, exportCanvasToPNG app.canvasRef)

/-! ## Legacy canvas component (`AnnotationCanvas.jsx`) -/

/-- An annotation record of the legacy `AnnotationCanvas` component (no `id`,
no style tag); only the circle-relevant fields are carried here. -/
structure AnnAC where
  type : String
  x : ℚ
  y : ℚ
  radius : ℚ
deriving DecidableEq, Repr

/-- `handleCanvasMouseUp`, circle branch (AnnotationCanvas.jsx lines 242-254):
the source computes `radius = Math.sqrt((x-sx)^2 + (y-sy)^2)` and appends
`{type:'circle', x: dragStart.x - radius, y: dragStart.y - radius, radius}`.
The radius is passed here as the argument `r`; theorems characterise it by
`0 ≤ r ∧ r ^ 2 = (pos.x - dragStart.x) ^ 2 + (pos.y - dragStart.y) ^ 2`. -/
def handleCanvasMouseUpCircle (anns : List AnnAC) (dragStart : Pt) (r : ℚ) :
    List AnnAC :=
  anns ++ [⟨"circle", dragStart.x - r, dragStart.y - r, r⟩]

/-- The center at which `drawCircle` (AnnotationCanvas.jsx lines 148-162)
renders a circle record: `ctx.arc(x + radius, y + radius, radius, ...)`. -/
def drawCircleCenter (a : AnnAC) : Pt :=
  ⟨a.x + a.radius, a.y + a.radius⟩

/-- The center at which the Konva `CircleAnnotation` component renders a circle
record: it passes the stored `x`, `y` directly as the Konva `Circle` position,
which Konva treats as the center. -/
def konvaCircleCenter (a : Ann) : Pt :=
  ⟨a.x, a.y⟩

/-! ## Drag sequences -/

/-- A complete rect/circle drag: pointer-down at `p0` on the empty stage, the
pointer-move trail `ps`, then pointer-up (`now` is `Date.now()` at the up). -/
def dragEvents (tl : Tool) (p0 : Pt) (ps : List Pt) (res : Option String)
    (t0 now : Nat) : List Event :=
  Event.mouseDown tl true p0 res t0 :: (ps.map Event.mouseMove ++ [Event.mouseUp now])

/-- The minimum-size test for a rect drag from `p0` whose last move is `c`:
both extents strictly above the 10-unit threshold.  A drag with no move never
commits (the extent fields are still `undefined`). -/
def rectPasses (p0 : Pt) (ps : List Pt) : Bool :=
  match ps.getLast? with
  | some c => decide ((10 : ℚ) < jsAbs (c.x - p0.x)) && decide ((10 : ℚ) < jsAbs (c.y - p0.y))
  | none => false

/-- The minimum-size test for a circle drag: radius above 10, i.e. squared
distance above 100. -/
def circlePasses (p0 : Pt) (ps : List Pt) : Bool :=
  match ps.getLast? with
  | some c =>
      decide ((100 : ℚ) < (c.x - p0.x) * (c.x - p0.x) + (c.y - p0.y) * (c.y - p0.y))
  | none => false

/-- The rect annotation committed by a drag from `p0` with final point `c`. -/
def rectAnnOf (p0 c : Pt) (now : Nat) : Ann :=
  ⟨⟨"rect", now⟩, .rect (jsAbs (c.x - p0.x)) (jsAbs (c.y - p0.y)) .warning,
    jsMin c.x p0.x, jsMin c.y p0.y⟩

/-- The circle annotation committed by a drag from `p0` with final point `c`. -/
def circleAnnOf (p0 c : Pt) (now : Nat) : Ann :=
  ⟨⟨"circle", now⟩,
    .circle ((c.x - p0.x) * (c.x - p0.x) + (c.y - p0.y) * (c.y - p0.y)) .warning,
    p0.x, p0.y⟩

/-! ## Marker numbering bookkeeping -/

/-- Does the event create a marker (marker tool, pointer-down on empty stage)? -/
def isMarkerCreate (e : Event) : Bool :=
  match e with
  | .mouseDown Tool.marker true _ _ _ => true
  | _ => false

/-- The `number` fields assigned at each marker creation while running `es`
from `s`, in creation order (each is `markerCount + 1` at creation time,
exactly the value stored by `handleStageMouseDown`). -/
def markerNumbersCreated (s : CanvasState) : List Event → List Nat
  | [] => []
  | e :: rest =>
      match e with
      | .mouseDown Tool.marker true _ _ _ =>
          (markerCount s.anns + 1) :: markerNumbersCreated (applyEvent s e) rest
      | _ => markerNumbersCreated (applyEvent s e) rest

/-- Does this single event avoid removing any marker-type annotation from
state `s`?  (`removeAt` hits a non-marker or nothing; `clearAll` fires with no
markers present; every other event never removes.) -/
def keepsMarkers (s : CanvasState) (e : Event) : Bool :=
  match e with
  | .removeAt i =>
      match s.anns[i]? with
      | some a => !a.isMarker
      | none => true
  | .clearAll => markerCount s.anns == 0
  | _ => true

/-- `true` iff no event of the sequence ever removes a marker-type annotation. -/
def noMarkerRemoval (s : CanvasState) : List Event → Bool
  | [] => true
  | e :: rest => keepsMarkers s e && noMarkerRemoval (applyEvent s e) rest

/-! ## Id bookkeeping -/

/-- The `Date.now()` timestamp carried by an event, if any (pointer-down and
pointer-up are the only events that can mint ids). -/
def eventTime? (e : Event) : Option Nat :=
  match e with
  | .mouseDown _ _ _ _ now => some now
  | .mouseUp now => some now
  | _ => none

/-- The ids of the annotations freshly created by `applyEvent s e` (mirrors the
creating branches of `handleStageMouseDown` and `handleStageMouseUp`). -/
def createdIds (s : CanvasState) : Event → List AnnId
  | .mouseDown tl onStage _ res now =>
      if onStage then
        match tl with
        | .marker => [⟨"marker", now⟩]
        | .text =>
            match res with
            | some t => if t = "" then [] else [⟨"text", now⟩]
            | none => []
        | _ => []
      else []
  | .mouseUp now =>
      if s.isDrawing then
        match s.tempShape with
        | none => []
        | some t =>
            if t.type = Tool.rect then
              if jsGtOpt t.width 10 && jsGtOpt t.height 10 then
                match t.x, t.y, t.width, t.height with
                | some _, some _, some _, some _ => [⟨"rect", now⟩]
                | _, _, _, _ => []
              else []
            else if t.type = Tool.circle then
              if jsGtOpt t.radius2 100 then
                match t.radius2 with
                | some _ => [⟨"circle", now⟩]
                | none => []
              else []
            else []
      else []
  | _ => []

/-- Timestamp bound advanced by one event: a timed event at `t` pushes the
bound to `t + 1`, an untimed event keeps it. -/
def newBound (b : Nat) (e : Event) : Nat :=
  match eventTime? e with
  | some t => t + 1
  | none => b

/-- Timestamp bound after a whole event sequence. -/
def runBound (b : Nat) (es : List Event) : Nat :=
  es.foldl newBound b

/-- The creation timestamps of the listed annotations, in list order. -/
def annTimes (l : List Ann) : List Nat :=
  l.map (fun a => a.id.time)

/-- Invariant tying a state to a timestamp bound: the creation timestamps of
the listed annotations are pairwise distinct and all below the bound. -/
def IdBound (s : CanvasState) (b : Nat) : Prop :=
  (annTimes s.anns).Nodup ∧ ∀ a ∈ s.anns, a.id.time < b

/-! ## Basic lemmas -/

theorem jsMin_eq_min (a b : ℚ) : jsMin a b = min a b := by
  simp [jsMin, min_def]

theorem jsAbs_eq_abs (a : ℚ) : jsAbs a = |a| := by
  rcases lt_or_le a 0 with h | h
  · simp [jsAbs, h, abs_of_neg h]
  · simp [jsAbs, not_lt.mpr h, abs_of_nonneg h]

/-- The squared-radius embedding of the circle threshold is exact: for the
nonnegative value `r` of `Math.sqrt(d)` and a nonnegative threshold `c`,
`r > c` holds iff `d > c * c`. -/
theorem radius_threshold_iff (r d c : ℚ) (h0 : 0 ≤ r) (hc : 0 ≤ c)
    (hd : r * r = d) : c < r ↔ c * c < d := by
  constructor
  · intro h
    nlinarith
  · intro h
    nlinarith

/-- `handleStageMouseMove` never writes the Annotation List. -/
theorem mouseMove_anns (s : CanvasState) (pos : Pt) :
    (handleStageMouseMove s pos).anns = s.anns := by
  unfold handleStageMouseMove
  split
  · rfl
  · split
    · rfl
    · split <;> rfl

/-! ## C10 — marker creation on cancelled elicitation -/

/-- C10: in the marker tool, a cancelled label elicitation (`prompt` returning
`null`, here `none`) still appends a marker annotation whose label is the empty
string; cancellation and an empty response produce identical states, because
`prompt(...) || ''` collapses both to `''`. -/
theorem marker_cancel_still_creates (s : CanvasState) (pos : Pt) (now : Nat) :
    handleStageMouseDown s Tool.marker true pos none now
      = handleStageMouseDown s Tool.marker true pos (some "") now
    ∧ (handleStageMouseDown s Tool.marker true pos none now).anns
      = s.anns ++ [⟨⟨"marker", now⟩,
          .marker (markerCount s.anns + 1) "" .primary, pos.x, pos.y⟩] := by
  constructor
  · simp [handleStageMouseDown, jsOrEmptyString]
  · simp [handleStageMouseDown, jsOrEmptyString]

/-! ## C8 — text tool commits iff response non-empty -/

/-- C8: in the text tool, a pointer-down on the empty stage appends a text
annotation at the mapped coordinates iff the elicited response is a non-empty
string; an empty response or a cancellation leaves the Annotation List
unchanged (and the handler is total, so no error is raised). -/
theorem text_commit_iff_nonempty (s : CanvasState) (pos : Pt)
    (res : Option String) (now : Nat) :
    (∀ str, res = some str → str ≠ "" →
        (handleStageMouseDown s Tool.text true pos res now).anns
          = s.anns ++ [⟨⟨"text", now⟩, .text str, pos.x, pos.y⟩])
    ∧ (res = none ∨ res = some "" →
        (handleStageMouseDown s Tool.text true pos res now).anns = s.anns) := by
  constructor
  · intro str hres hne
    subst hres
    simp [handleStageMouseDown, hne]
  · intro h
    rcases h with h | h <;> subst h <;> simp [handleStageMouseDown]

/-- Witness for `text_commit_iff_nonempty` at a concrete input. -/
theorem text_commit_iff_nonempty_witness :
    (handleStageMouseDown initState Tool.text true ⟨3, 4⟩ (some "hi") 9).anns
      = initState.anns ++ [⟨⟨"text", 9⟩, .text "hi", 3, 4⟩] :=
  (text_commit_iff_nonempty initState ⟨3, 4⟩ (some "hi") 9).1 "hi" rfl (by decide)

/-! ## C7 — drag-end isolation -/

/-- C7: the drag-end commit (`handleAnnotationChange`, invoked once from
`onDragEnd` with the final position) only rewrites the dragged annotation's
`x`/`y`: the list's length and order are unchanged, every entry with a
different id is bit-identical, the entry with the dragged id keeps its id and
kind and receives exactly the new position, and stage mouse-moves never write
the list (the store position is written only by the drag-end commit). -/
theorem drag_end_isolation (s : CanvasState) (id : AnnId) (pos : Pt) :
    (handleAnnotationChange s id pos).anns.length = s.anns.length
    ∧ (∀ (i : Nat) (a : Ann), s.anns[i]? = some a → a.id ≠ id →
        (handleAnnotationChange s id pos).anns[i]? = some a)
    ∧ (∀ (i : Nat) (a : Ann), s.anns[i]? = some a → a.id = id →
        (handleAnnotationChange s id pos).anns[i]?
          = some { a with x := pos.x, y := pos.y })
    ∧ (∀ q, (handleStageMouseMove s q).anns = s.anns) := by
  refine ⟨by simp [handleAnnotationChange], ?_, ?_, fun q => mouseMove_anns s q⟩
  · intro i a h hne
    simp [handleAnnotationChange, List.getElem?_map, h, hne]
  · intro i a h heq
    simp [handleAnnotationChange, List.getElem?_map, h, heq]

/-- Witness for `drag_end_isolation`: in a two-element list, dragging the
first annotation leaves the second bit-identical. -/
theorem drag_end_isolation_witness :
    (handleAnnotationChange
        { anns := [⟨⟨"marker", 1⟩, .marker 1 "" .primary, 0, 0⟩,
                   ⟨⟨"text", 2⟩, .text "hi", 5, 5⟩],
          selectedId := none, isDrawing := false, tempShape := none }
        ⟨"marker", 1⟩ ⟨7, 8⟩).anns[1]?
      = some ⟨⟨"text", 2⟩, .text "hi", 5, 5⟩ :=
  (drag_end_isolation
      { anns := [⟨⟨"marker", 1⟩, .marker 1 "" .primary, 0, 0⟩,
                 ⟨⟨"text", 2⟩, .text "hi", 5, 5⟩],
        selectedId := none, isDrawing := false, tempShape := none }
      ⟨"marker", 1⟩ ⟨7, 8⟩).2.1 1 ⟨⟨"text", 2⟩, .text "hi", 5, 5⟩ rfl (by decide)

/-! ## C9 — export without image or surface is a no-op -/

/-- C9: invoking export when no base image is loaded, or when the stage ref is
not populated, is a no-op: the app state is unchanged and no artifact is
produced (so nothing is downloaded and no exception reaches the user; the
embedded handler is total).  `himg` is the App render invariant: with
`image = none` the app shows the upload screen and the `KonvaCanvas` (hence
the stage ref) is not mounted. -/
theorem export_unready_noop (app : AppState)
    (himg : app.image = none → app.canvasRef = none)
    (h : app.image = none ∨ app.canvasRef = none) :
    handleExport app = (app, none) := by
  have href : app.canvasRef = none := by
    rcases h with h | h
    · exact himg h
    · exact h
  simp [handleExport, exportCanvasToPNG, href]

/-- Witness for `export_unready_noop` at a concrete input. -/
theorem export_unready_noop_witness :
    handleExport { image := none, anns := [], canvasRef := none }
      = ({ image := none, anns := [], canvasRef := none }, none) :=
  export_unready_noop { image := none, anns := [], canvasRef := none }
    (fun _ => rfl) (Or.inl rfl)

/-! ## C1 — export resolution -/

/-- C1 (evaluation at the failing input): with an 800×600 image displayed in a
1024×768 container, the stage is container-sized and `exportCanvasToPNG`
(Konva `toDataURL` with `pixelRatio: 2`) produces a 2048×1536 raster — not the
image's intrinsic 800×600.  The exported size follows the container, never the
image's intrinsic dimensions. -/
theorem export_dims_follow_container :
    exportCanvasToPNG (some (stageOfContainer 1024 768)) = some (2048, 1536)
    ∧ ((2048 : ℚ), (1536 : ℚ)) ≠ ((Img.mk 800 600).width, (Img.mk 800 600).height) := by
  constructor
  · norm_num [exportCanvasToPNG, stageOfContainer, toDataURLSize]
  · simp only [Img.mk.injEq, Prod.mk.injEq, ne_eq]
    norm_num

/-! ## Drag-run lemmas -/

/-- Folding the pointer-move trail of a rect drag: the preview keeps the start
point and holds the box determined by the last move. -/
theorem runMoves_rect (ps : List Pt) (c : Pt) (h : ps.getLast? = some c) :
    ∀ (s : CanvasState) (t : TempShape), s.isDrawing = true → s.tempShape = some t →
      t.type = Tool.rect →
      runEvents s (ps.map Event.mouseMove)
        = { s with tempShape := some { t with
            x := some (jsMin c.x t.startX),
            y := some (jsMin c.y t.startY),
            width := some (jsAbs (c.x - t.startX)),
            height := some (jsAbs (c.y - t.startY)) } } := by
  induction ps with
  | nil => simp at h
  | cons p ps ih =>
      intro s t hd ht htt
      have hstep : applyEvent s (Event.mouseMove p)
          = { s with tempShape := some { t with
              x := some (jsMin p.x t.startX),
              y := some (jsMin p.y t.startY),
              width := some (jsAbs (p.x - t.startX)),
              height := some (jsAbs (p.y - t.startY)) } } := by
        simp [applyEvent, handleStageMouseMove, hd, ht, htt]
      cases ps with
      | nil =>
          simp only [List.getLast?_singleton, Option.some.injEq] at h
          subst h
          simp [runEvents, List.foldl, hstep]
      | cons p2 ps2 =>
          rw [List.getLast?_cons_cons] at h
          have hrun : runEvents s (((p :: p2 :: ps2).map Event.mouseMove))
              = runEvents (applyEvent s (Event.mouseMove p))
                  ((p2 :: ps2).map Event.mouseMove) := rfl
          have h2 := ih h
            { s with tempShape := some { t with
                x := some (jsMin p.x t.startX),
                y := some (jsMin p.y t.startY),
                width := some (jsAbs (p.x - t.startX)),
                height := some (jsAbs (p.y - t.startY)) } }
            { t with
                x := some (jsMin p.x t.startX),
                y := some (jsMin p.y t.startY),
                width := some (jsAbs (p.x - t.startX)),
                height := some (jsAbs (p.y - t.startY)) }
            (by simp [hd]) rfl htt
          rw [hrun, hstep, h2]

/-- Folding the pointer-move trail of a circle drag: the preview keeps the
start point and holds the squared radius determined by the last move. -/
theorem runMoves_circle (ps : List Pt) (c : Pt) (h : ps.getLast? = some c) :
    ∀ (s : CanvasState) (t : TempShape), s.isDrawing = true → s.tempShape = some t →
      t.type = Tool.circle →
      runEvents s (ps.map Event.mouseMove)
        = { s with tempShape := some { t with
            radius2 := some ((c.x - t.startX) * (c.x - t.startX)
              + (c.y - t.startY) * (c.y - t.startY)) } } := by
  induction ps with
  | nil => simp at h
  | cons p ps ih =>
      intro s t hd ht htt
      have hstep : applyEvent s (Event.mouseMove p)
          = { s with tempShape := some { t with
              radius2 := some ((p.x - t.startX) * (p.x - t.startX)
                + (p.y - t.startY) * (p.y - t.startY)) } } := by
        simp [applyEvent, handleStageMouseMove, hd, ht, htt]
      cases ps with
      | nil =>
          simp only [List.getLast?_singleton, Option.some.injEq] at h
          subst h
          simp [runEvents, List.foldl, hstep]
      | cons p2 ps2 =>
          rw [List.getLast?_cons_cons] at h
          have hrun : runEvents s (((p :: p2 :: ps2).map Event.mouseMove))
              = runEvents (applyEvent s (Event.mouseMove p))
                  ((p2 :: ps2).map Event.mouseMove) := rfl
          have h2 := ih h
            { s with tempShape := some { t with
                radius2 := some ((p.x - t.startX) * (p.x - t.startX)
                  + (p.y - t.startY) * (p.y - t.startY)) } }
            { t with
                radius2 := some ((p.x - t.startX) * (p.x - t.startX)
                  + (p.y - t.startY) * (p.y - t.startY)) }
            (by simp [hd]) rfl htt
          rw [hrun, hstep, h2]

/-- Complete characterisation of a rect drag: selection cleared, drawing state
reset, and the Annotation List extended exactly when the minimum-size test
passes. -/
theorem runDrag_rect (s : CanvasState) (p0 : Pt) (ps : List Pt)
    (res : Option String) (t0 now : Nat) :
    runEvents s (dragEvents Tool.rect p0 ps res t0 now)
      = { anns := s.anns ++
            (if rectPasses p0 ps then
              match ps.getLast? with
              | some c => [rectAnnOf p0 c now]
              | none => []
             else []),
          selectedId := none, isDrawing := false, tempShape := none } := by
  have hdown : applyEvent s (Event.mouseDown Tool.rect true p0 res t0)
      = { s with
            selectedId := none
            isDrawing := true
            tempShape := some { type := .rect, startX := p0.x, startY := p0.y } } := by
    simp [applyEvent, handleStageMouseDown]
  have hsplit : runEvents s (dragEvents Tool.rect p0 ps res t0 now)
      = applyEvent
          (runEvents (applyEvent s (Event.mouseDown Tool.rect true p0 res t0))
            (ps.map Event.mouseMove))
          (Event.mouseUp now) := by
    simp [dragEvents, runEvents, List.foldl_append]
  rw [hsplit, hdown]
  match hps : ps.getLast? with
  | none =>
      have : ps = [] := by
        cases ps with
        | nil => rfl
        | cons a l => simp [List.getLast?_eq_getLast] at hps
      subst this
      simp [runEvents, rectPasses, applyEvent, handleStageMouseUp, jsGtOpt]
  | some c =>
      rw [runMoves_rect ps c hps _ { type := .rect, startX := p0.x, startY := p0.y }
        (by simp) rfl rfl]
      simp only [rectPasses, hps]
      rcases lt_or_le (10 : ℚ) (jsAbs (c.x - p0.x)) with hw | hw
      · rcases lt_or_le (10 : ℚ) (jsAbs (c.y - p0.y)) with hh | hh
        · simp [applyEvent, handleStageMouseUp, jsGtOpt, hw, hh, rectAnnOf]
        · simp [applyEvent, handleStageMouseUp, jsGtOpt, hw, not_lt.mpr hh]
      · simp [applyEvent, handleStageMouseUp, jsGtOpt, not_lt.mpr hw]

/-- Complete characterisation of a circle drag. -/
theorem runDrag_circle (s : CanvasState) (p0 : Pt) (ps : List Pt)
    (res : Option String) (t0 now : Nat) :
    runEvents s (dragEvents Tool.circle p0 ps res t0 now)
      = { anns := s.anns ++
            (if circlePasses p0 ps then
              match ps.getLast? with
              | some c => [circleAnnOf p0 c now]
              | none => []
             else []),
          selectedId := none, isDrawing := false, tempShape := none } := by
  have hdown : applyEvent s (Event.mouseDown Tool.circle true p0 res t0)
      = { s with
            selectedId := none
            isDrawing := true
            tempShape := some { type := .circle, startX := p0.x, startY := p0.y } } := by
    simp [applyEvent, handleStageMouseDown]
  have hsplit : runEvents s (dragEvents Tool.circle p0 ps res t0 now)
      = applyEvent
          (runEvents (applyEvent s (Event.mouseDown Tool.circle true p0 res t0))
            (ps.map Event.mouseMove))
          (Event.mouseUp now) := by
    simp [dragEvents, runEvents, List.foldl_append]
  rw [hsplit, hdown]
  match hps : ps.getLast? with
  | none =>
      have : ps = [] := by
        cases ps with
        | nil => rfl
        | cons a l => simp [List.getLast?_eq_getLast] at hps
      subst this
      simp [runEvents, circlePasses, applyEvent, handleStageMouseUp, jsGtOpt]
  | some c =>
      rw [runMoves_circle ps c hps _ { type := .circle, startX := p0.x, startY := p0.y }
        (by simp) rfl rfl]
      simp only [circlePasses, hps]
      rcases lt_or_le (100 : ℚ)
          ((c.x - p0.x) * (c.x - p0.x) + (c.y - p0.y) * (c.y - p0.y)) with hr | hr
      · simp [applyEvent, handleStageMouseUp, jsGtOpt, hr, circleAnnOf]
      · simp [applyEvent, handleStageMouseUp, jsGtOpt, not_lt.mpr hr]

/-! ## C3 — minimum-size commit -/

/-- C3: a rect/circle drag ending in pointer-up commits the preview into the
Annotation List iff it beats the minimum-size threshold — the small positive
constant 10: rect needs width > 10 and height > 10, circle needs radius > 10
(squared distance > 100).  Otherwise the list is unchanged; in every case the
preview is discarded (`isDrawing` reset, `tempShape` cleared). -/
theorem drag_commit_iff_min_size (s : CanvasState) (tl : Tool)
    (htl : tl = Tool.rect ∨ tl = Tool.circle) (p0 : Pt) (ps : List Pt)
    (res : Option String) (t0 now : Nat) :
    (runEvents s (dragEvents tl p0 ps res t0 now)).isDrawing = false
    ∧ (runEvents s (dragEvents tl p0 ps res t0 now)).tempShape = none
    ∧ (runEvents s (dragEvents tl p0 ps res t0 now)).anns
        = s.anns ++
          (if tl = Tool.rect then
            (if rectPasses p0 ps then
              match ps.getLast? with
              | some c => [rectAnnOf p0 c now]
              | none => []
             else [])
           else
            (if circlePasses p0 ps then
              match ps.getLast? with
              | some c => [circleAnnOf p0 c now]
              | none => []
             else [])) := by
  rcases htl with h | h <;> subst h
  · rw [runDrag_rect s p0 ps res t0 now]
    simp
  · rw [runDrag_circle s p0 ps res t0 now]
    simp

/-- Witness for `drag_commit_iff_min_size`: the spec's below-threshold rect
drag (10,10) → (12,11) leaves the Annotation List unchanged. -/
theorem drag_commit_iff_min_size_witness :
    (runEvents initState (dragEvents Tool.rect ⟨10, 10⟩ [⟨12, 11⟩] none 0 5)).anns
      = initState.anns := by
  have h := (drag_commit_iff_min_size initState Tool.rect (Or.inl rfl)
    ⟨10, 10⟩ [⟨12, 11⟩] none 0 5).2.2
  have hpass : rectPasses ⟨10, 10⟩ [⟨12, 11⟩] = false := by
    norm_num [rectPasses, jsAbs]
  rw [h, hpass]
  simp

/-! ## C6 — rect drag geometry -/

/-- C6: a committed rect drag from `(sx, sy)` with final move `(cx, cy)` that
passes the minimum-size test stores `x = min sx cx`, `y = min sy cy`,
`width = |cx − sx|`, `height = |cy − sy|` — well-formed (nonnegative extents)
even when dragging up or left. -/
theorem rect_drag_geometry (s : CanvasState) (p0 c : Pt) (ps : List Pt)
    (hlast : ps.getLast? = some c) (res : Option String) (t0 now : Nat)
    (hw : 10 < |c.x - p0.x|) (hh : 10 < |c.y - p0.y|) :
    (runEvents s (dragEvents Tool.rect p0 ps res t0 now)).anns
      = s.anns ++ [⟨⟨"rect", now⟩,
          .rect |c.x - p0.x| |c.y - p0.y| .warning,
          min c.x p0.x, min c.y p0.y⟩]
    ∧ (0 : ℚ) ≤ |c.x - p0.x| ∧ (0 : ℚ) ≤ |c.y - p0.y| := by
  refine ⟨?_, abs_nonneg _, abs_nonneg _⟩
  rw [runDrag_rect s p0 ps res t0 now]
  have hpass : rectPasses p0 ps = true := by
    simp only [rectPasses, hlast, jsAbs_eq_abs]
    simp [hw, hh]
  rw [hpass]
  simp only [hlast, if_true]
  simp [rectAnnOf, jsAbs_eq_abs, jsMin_eq_min]

/-- Witness for `rect_drag_geometry`: the spec's scenario drag (10,10) →
(100,80) commits {type: rect, x: 10, y: 10, width: 90, height: 70}. -/
theorem rect_drag_geometry_witness :
    (runEvents initState (dragEvents Tool.rect ⟨10, 10⟩ [⟨100, 80⟩] none 0 5)).anns
      = [⟨⟨"rect", 5⟩, .rect 90 70 .warning, 10, 10⟩] := by
  have h := (rect_drag_geometry initState ⟨10, 10⟩ ⟨100, 80⟩ [⟨100, 80⟩] rfl none 0 5
    (by rw [show ((100 : ℚ) - 10) = 90 by norm_num, abs_of_nonneg (by norm_num)]; norm_num)
    (by rw [show ((80 : ℚ) - 10) = 70 by norm_num, abs_of_nonneg (by norm_num)]; norm_num)).1
  rw [h]
  norm_num [initState, abs_of_nonneg, min_def]

/-! ## C5 — circle center semantics -/

/-- C5 (amended): a committed circle drag stores its center differently in the
two components.  In `KonvaCanvas` the stored `x`, `y` equal the drag start
point and the Konva renderer draws the circle centered at the stored `x`, `y`.
In the legacy `AnnotationCanvas` the stored `x`, `y` equal drag start − radius
(the bounding-box corner) and `drawCircle` re-centers at
`(x + radius, y + radius)`; so the *rendered* center equals the drag start in
both components, but the stored fields equal the drag start only in
`KonvaCanvas`.  `r` is the legacy drag's radius, characterised as the
Euclidean distance from `dragStart` to `pos`. -/
theorem circle_center_semantics (s : CanvasState) (p0 c : Pt) (ps : List Pt)
    (hlast : ps.getLast? = some c) (res : Option String) (t0 now : Nat)
    (hpass : 100 < (c.x - p0.x) * (c.x - p0.x) + (c.y - p0.y) * (c.y - p0.y))
    (annsAC : List AnnAC) (dragStart pos : Pt) (r : ℚ) (_hr0 : 0 ≤ r)
    (hr : r ^ 2 = (pos.x - dragStart.x) ^ 2 + (pos.y - dragStart.y) ^ 2) :
    ((runEvents s (dragEvents Tool.circle p0 ps res t0 now)).anns
        = s.anns ++ [circleAnnOf p0 c now]
      ∧ (circleAnnOf p0 c now).x = p0.x
      ∧ (circleAnnOf p0 c now).y = p0.y
      ∧ konvaCircleCenter (circleAnnOf p0 c now) = p0)
    ∧ (handleCanvasMouseUpCircle annsAC dragStart r
        = annsAC ++ [⟨"circle", dragStart.x - r, dragStart.y - r, r⟩]
      ∧ drawCircleCenter ⟨"circle", dragStart.x - r, dragStart.y - r, r⟩ = dragStart) := by
  refine ⟨⟨?_, rfl, rfl, ?_⟩, rfl, ?_⟩
  · rw [runDrag_circle s p0 ps res t0 now]
    have hpass' : circlePasses p0 ps = true := by
      rw [circlePasses, hlast]
      simp [hpass]
    rw [hpass']
    simp [hlast]
  · cases p0
    simp [konvaCircleCenter, circleAnnOf]
  · cases dragStart
    simp [drawCircleCenter]

/-- Witness for `circle_center_semantics`: Konva drag (0,0) → (20,0) stores
center (0,0); legacy drag (0,0) → (3,4) has radius 5 and rendered center
(0,0). -/
theorem circle_center_semantics_witness :
    (runEvents initState (dragEvents Tool.circle ⟨0, 0⟩ [⟨20, 0⟩] none 0 5)).anns
      = [circleAnnOf ⟨0, 0⟩ ⟨20, 0⟩ 5]
    ∧ drawCircleCenter ⟨"circle", (0 : ℚ) - 5, (0 : ℚ) - 5, 5⟩ = (⟨0, 0⟩ : Pt) := by
  have h := circle_center_semantics initState ⟨0, 0⟩ ⟨20, 0⟩ [⟨20, 0⟩] rfl none 0 5
    (by norm_num) [] ⟨0, 0⟩ ⟨3, 4⟩ 5 (by norm_num) (by norm_num)
  exact ⟨by simpa [initState] using h.1.1, h.2.2⟩

/-- C5 (counterexample): in the legacy `AnnotationCanvas`, the circle drag from
(0,0) to (3,4) has Euclidean radius 5 (5 ≥ 0 and 5² = 3² + 4²), and the
committed record stores x = −5 ≠ 0: the stored `x`, `y` fields are not the
drag start / center, even though `drawCircle` re-centers the rendered circle
at the start point. -/
theorem circle_center_counterexample :
    handleCanvasMouseUpCircle [] ⟨0, 0⟩ 5 = [⟨"circle", -5, -5, 5⟩]
    ∧ (0 : ℚ) ≤ 5 ∧ (5 : ℚ) ^ 2 = ((3 : ℚ) - 0) ^ 2 + ((4 : ℚ) - 0) ^ 2
    ∧ ((-5 : ℚ) ≠ 0)
    ∧ drawCircleCenter ⟨"circle", -5, -5, 5⟩ = (⟨0, 0⟩ : Pt) := by
  refine ⟨?_, by norm_num, by norm_num, by norm_num, ?_⟩
  · norm_num [handleCanvasMouseUpCircle]
  · norm_num [drawCircleCenter]

/-! ## Marker-count lemmas -/

theorem markerCount_cons (a : Ann) (l : List Ann) :
    markerCount (a :: l) = (if a.isMarker then 1 else 0) + markerCount l := by
  simp only [markerCount, List.filter_cons]
  cases h : a.isMarker <;> simp [h, Nat.add_comm]

theorem markerCount_append_one (l : List Ann) (a : Ann) :
    markerCount (l ++ [a]) = markerCount l + (if a.isMarker then 1 else 0) := by
  induction l with
  | nil => cases h : a.isMarker <;> simp [markerCount, List.filter_cons, h]
  | cons b l ih => simp [markerCount_cons, ih]; omega

theorem markerCount_map_of_preserve (f : Ann → Ann)
    (hf : ∀ a, (f a).isMarker = a.isMarker) (l : List Ann) :
    markerCount (l.map f) = markerCount l := by
  induction l with
  | nil => rfl
  | cons a l ih => simp [markerCount_cons, hf, ih]

theorem markerCount_eraseIdx_of_not_marker (l : List Ann) (i : Nat)
    (h : ∀ a : Ann, l[i]? = some a → a.isMarker = false) :
    markerCount (l.eraseIdx i) = markerCount l := by
  induction l generalizing i with
  | nil => simp [List.eraseIdx]
  | cons a l ih =>
      cases i with
      | zero =>
          have ha := h a (by simp)
          simp [List.eraseIdx, markerCount_cons, ha]
      | succ n =>
          have h2 : ∀ b : Ann, l[n]? = some b → b.isMarker = false := by
            intro b hb
            exact h b (by simpa using hb)
          simp [List.eraseIdx, markerCount_cons, ih n h2]

/-- One step of the marker-count invariant: an event that removes no marker
changes the marker count by exactly one on a marker creation and by zero
otherwise. -/
theorem markerCount_applyEvent (s : CanvasState) (e : Event)
    (hok : keepsMarkers s e = true) :
    markerCount (applyEvent s e).anns
      = markerCount s.anns + (if isMarkerCreate e then 1 else 0) := by
  cases e with
  | mouseDown tl onStage pos res now =>
      cases onStage with
      | false => cases tl <;> simp [applyEvent, handleStageMouseDown, isMarkerCreate]
      | true =>
          cases tl with
          | marker =>
              simp [applyEvent, handleStageMouseDown, isMarkerCreate,
                markerCount_append_one, Ann.isMarker]
          | text =>
              cases res with
              | none => simp [applyEvent, handleStageMouseDown, isMarkerCreate]
              | some t =>
                  by_cases ht : t = "" <;>
                    simp [applyEvent, handleStageMouseDown, isMarkerCreate, ht,
                      markerCount_append_one, Ann.isMarker]
          | rect => simp [applyEvent, handleStageMouseDown, isMarkerCreate]
          | circle => simp [applyEvent, handleStageMouseDown, isMarkerCreate]
          | select => simp [applyEvent, handleStageMouseDown, isMarkerCreate]
  | mouseMove pos =>
      simp [applyEvent, isMarkerCreate, mouseMove_anns]
  | mouseUp now =>
      simp only [applyEvent, isMarkerCreate, if_false, Bool.false_eq_true]
      unfold handleStageMouseUp
      split
      · simp
      · split
        · simp
        · split
          · split
            · split
              · simp [markerCount_append_one, Ann.isMarker]
              · simp
            · simp
          · split
            · split
              · split
                · simp [markerCount_append_one, Ann.isMarker]
                · simp
              · simp
            · simp
  | stageClick b =>
      cases b <;> simp [applyEvent, handleStageClick, isMarkerCreate]
  | dragEnd id pos =>
      have hf : ∀ a : Ann, ((fun a : Ann =>
          if a.id = id then { a with x := pos.x, y := pos.y } else a) a).isMarker
            = a.isMarker := by
        intro a
        by_cases h : a.id = id <;> simp [h, Ann.isMarker]
      simp [applyEvent, handleAnnotationChange, isMarkerCreate,
        markerCount_map_of_preserve _ hf]
  | removeAt i =>
      have h : ∀ a : Ann, s.anns[i]? = some a → a.isMarker = false := by
        intro a ha
        simp only [keepsMarkers, ha] at hok
        simpa using hok
      simp [applyEvent, handleDelete, isMarkerCreate,
        markerCount_eraseIdx_of_not_marker _ _ h]
  | clearAll =>
      simp only [keepsMarkers, beq_iff_eq] at hok
      simp [applyEvent, handleClearAnnotations, isMarkerCreate, markerCount, ← hok]

/-- Auxiliary: indexing into `List.range'`. -/
theorem range'_getElem_aux (n : Nat) :
    ∀ (s k : Nat), k < n → (List.range' s n)[k]? = some (s + k) := by
  induction n with
  | zero => intro s k h; omega
  | succ n ih =>
      intro s k h
      cases k with
      | zero => simp [List.range']
      | succ k =>
          have := ih (s + 1) k (by omega)
          simp only [List.range', List.getElem?_cons_succ, this]
          congr 1
          omega

/-- The numbers assigned at marker creations while running `es` from `s` form
the arithmetic progression starting after the current marker count, provided
no marker is removed along the way. -/
theorem markerNumbersCreated_eq_range (es : List Event) :
    ∀ s : CanvasState, noMarkerRemoval s es = true →
      markerNumbersCreated s es
        = List.range' (markerCount s.anns + 1) (es.countP isMarkerCreate) := by
  induction es with
  | nil =>
      intro s _
      simp [markerNumbersCreated, List.countP, List.range']
  | cons e rest ih =>
      intro s h
      simp only [noMarkerRemoval, Bool.and_eq_true] at h
      obtain ⟨h1, h2⟩ := h
      have hmc := markerCount_applyEvent s e h1
      have hrec := ih (applyEvent s e) h2
      by_cases hc : isMarkerCreate e = true
      · have hshape : markerNumbersCreated s (e :: rest)
            = (markerCount s.anns + 1) :: markerNumbersCreated (applyEvent s e) rest := by
          cases e with
          | mouseDown tl onStage pos res now =>
              cases tl <;> cases onStage <;>
                simp_all [isMarkerCreate, markerNumbersCreated]
          | mouseMove pos => simp [isMarkerCreate] at hc
          | mouseUp now => simp [isMarkerCreate] at hc
          | stageClick b => simp [isMarkerCreate] at hc
          | dragEnd id pos => simp [isMarkerCreate] at hc
          | removeAt i => simp [isMarkerCreate] at hc
          | clearAll => simp [isMarkerCreate] at hc
        rw [hshape, hrec, hmc, hc]
        simp only [List.countP_cons, hc, if_true]
        simp [List.range']
      · have hshape : markerNumbersCreated s (e :: rest)
            = markerNumbersCreated (applyEvent s e) rest := by
          cases e with
          | mouseDown tl onStage pos res now =>
              cases tl <;> cases onStage <;>
                simp_all [isMarkerCreate, markerNumbersCreated]
          | mouseMove pos => simp [markerNumbersCreated]
          | mouseUp now => simp [markerNumbersCreated]
          | stageClick b => simp [markerNumbersCreated]
          | dragEnd id pos => simp [markerNumbersCreated]
          | removeAt i => simp [markerNumbersCreated]
          | clearAll => simp [markerNumbersCreated]
        rw [hshape, hrec, hmc]
        simp only [Bool.not_eq_true] at hc
        simp [List.countP_cons, hc]

/-! ## C2 — marker numbering -/

/-- C2 (amended): starting from the initial state, for every event sequence in
which no marker-type annotation is ever removed (creations, moves, drags,
selections, and removals of non-marker annotations are all allowed), the k-th
marker created — 0-indexed entry `k` of the creation-order list — receives
number `k + 1`; i.e. the k-th marker (1-indexed) is numbered `k`,
independently of interleaved non-marker annotations. -/
theorem marker_numbering (es : List Event)
    (h : noMarkerRemoval initState es = true)
    (k : Nat) (hk : k < (markerNumbersCreated initState es).length) :
    (markerNumbersCreated initState es)[k]? = some (k + 1) := by
  have hr := markerNumbersCreated_eq_range es initState h
  have h0 : markerCount initState.anns = 0 := rfl
  rw [hr, h0] at hk ⊢
  rw [List.length_range'] at hk
  rw [range'_getElem_aux _ _ _ hk]
  congr 1
  omega

/-- Witness for `marker_numbering`: two marker creations with an interleaved
text creation and a removal of the text annotation; the 2nd marker created
(index 1) is numbered 2. -/
theorem marker_numbering_witness :
    (markerNumbersCreated initState
      [Event.mouseDown Tool.marker true ⟨0, 0⟩ (some "Submit") 1,
       Event.mouseDown Tool.text true ⟨1, 1⟩ (some "hi") 2,
       Event.removeAt 1,
       Event.mouseDown Tool.marker true ⟨2, 2⟩ none 3])[1]? = some 2 := by
  have h := marker_numbering
    [Event.mouseDown Tool.marker true ⟨0, 0⟩ (some "Submit") 1,
     Event.mouseDown Tool.text true ⟨1, 1⟩ (some "hi") 2,
     Event.removeAt 1,
     Event.mouseDown Tool.marker true ⟨2, 2⟩ none 3]
    (by decide)
    1
    (by decide)
  simpa using h

/-- C2 (counterexample): with a deletion of a marker in the sequence, the
claim fails — create a marker (numbered 1), remove it, create another: the 2nd
marker ever created is numbered 1, not 2. -/
theorem marker_numbering_counterexample :
    (markerNumbersCreated initState
      [Event.mouseDown Tool.marker true ⟨0, 0⟩ none 1,
       Event.removeAt 0,
       Event.mouseDown Tool.marker true ⟨5, 5⟩ none 2]) = [1, 1]
    ∧ (1 : Nat) ≠ 2 := by
  constructor
  · norm_num [markerNumbersCreated, applyEvent, handleStageMouseDown,
      handleDelete, initState, markerCount, List.filter, Ann.isMarker,
      jsOrEmptyString, List.eraseIdx]
  · omega

/-! ## Id lemmas -/

/-- Under a drag-end update, the id list is unchanged. -/
theorem map_id_of_update (id : AnnId) (pos : Pt) (l : List Ann) :
    (l.map (fun a => if a.id = id then { a with x := pos.x, y := pos.y } else a)).map
        Ann.id
      = l.map Ann.id := by
  induction l with
  | nil => rfl
  | cons a l ih =>
      by_cases h : a.id = id <;> simp [h, ih]

/-- Shape of one step, as seen through ids: either the id list is a sublist of
the previous one (no creation), or exactly one annotation was created, carrying
the event's timestamp in its id, and appended at the end. -/
theorem applyEvent_anns_cases (s : CanvasState) (e : Event) :
    ((applyEvent s e).anns.map Ann.id).Sublist (s.anns.map Ann.id)
    ∨ ∃ i : AnnId, createdIds s e = [i] ∧ eventTime? e = some i.time
        ∧ (applyEvent s e).anns.map Ann.id = s.anns.map Ann.id ++ [i] := by
  cases e with
  | mouseDown tl onStage pos res now =>
      cases onStage with
      | false =>
          left
          cases tl <;> simp [applyEvent, handleStageMouseDown]
      | true =>
          cases tl with
          | marker =>
              right
              exact ⟨⟨"marker", now⟩, by simp [createdIds], rfl,
                by simp [applyEvent, handleStageMouseDown]⟩
          | text =>
              cases res with
              | none => left; simp [applyEvent, handleStageMouseDown]
              | some t =>
                  by_cases ht : t = ""
                  · left; simp [applyEvent, handleStageMouseDown, ht]
                  · right
                    exact ⟨⟨"text", now⟩, by simp [createdIds, ht], rfl,
                      by simp [applyEvent, handleStageMouseDown, ht]⟩
          | rect => left; simp [applyEvent, handleStageMouseDown]
          | circle => left; simp [applyEvent, handleStageMouseDown]
          | select => left; simp [applyEvent, handleStageMouseDown]
  | mouseMove pos =>
      left
      simp [applyEvent, mouseMove_anns]
  | mouseUp now =>
      by_cases hd : s.isDrawing
      · cases ht : s.tempShape with
        | none => left; simp [applyEvent, handleStageMouseUp, hd, ht]
        | some t =>
            by_cases htr : t.type = Tool.rect
            · by_cases hw : (jsGtOpt t.width 10 && jsGtOpt t.height 10) = true
              · cases hwd : t.width with
                | none => rw [hwd] at hw; simp [jsGtOpt] at hw
                | some w =>
                    cases hh : t.height with
                    | none => rw [hh] at hw; simp [jsGtOpt] at hw
                    | some hgt =>
                        cases hx : t.x with
                        | none =>
                            left
                            simp [applyEvent, handleStageMouseUp, hd, ht, htr, hw,
                              hwd, hh, hx]
                        | some tx =>
                            cases hy : t.y with
                            | none =>
                                left
                                simp [applyEvent, handleStageMouseUp, hd, ht, htr,
                                  hw, hwd, hh, hx, hy]
                            | some ty =>
                                right
                                rw [hwd, hh, Bool.and_eq_true] at hw
                                obtain ⟨hw1, hw2⟩ := hw
                                refine ⟨⟨"rect", now⟩, ?_, rfl, ?_⟩
                                · simp [createdIds, hd, ht, htr, hw1, hw2, hwd, hh,
                                    hx, hy]
                                · simp [applyEvent, handleStageMouseUp, hd, ht, htr,
                                    hw1, hw2, hwd, hh, hx, hy]
              · left
                simp [applyEvent, handleStageMouseUp, hd, ht, htr, hw]
            · by_cases htc : t.type = Tool.circle
              · by_cases hr : jsGtOpt t.radius2 100 = true
                · cases hr2 : t.radius2 with
                  | none => rw [hr2] at hr; simp [jsGtOpt] at hr
                  | some r2 =>
                      right
                      rw [hr2] at hr
                      refine ⟨⟨"circle", now⟩, ?_, rfl, ?_⟩
                      · simp [createdIds, hd, ht, htr, htc, hr, hr2]
                      · simp [applyEvent, handleStageMouseUp, hd, ht, htr, htc, hr, hr2]
                · left
                  simp [applyEvent, handleStageMouseUp, hd, ht, htr, htc, hr]
              · left
                simp [applyEvent, handleStageMouseUp, hd, ht, htr, htc]
      · left
        simp [applyEvent, handleStageMouseUp, hd]
  | stageClick b =>
      left
      cases b <;> simp [applyEvent, handleStageClick]
  | dragEnd id pos =>
      left
      have h3 : (applyEvent s (Event.dragEnd id pos)).anns.map Ann.id
          = s.anns.map Ann.id := by
        simp only [applyEvent, handleAnnotationChange]
        exact map_id_of_update id pos s.anns
      rw [h3]
  | removeAt i =>
      left
      exact ((List.eraseIdx_sublist s.anns i).map Ann.id)
  | clearAll =>
      left
      simp [applyEvent, handleClearAnnotations]

/-- One step preserves the id/timestamp bound invariant, advancing the bound
past the event's timestamp. -/
theorem IdBound_applyEvent (s : CanvasState) (e : Event) (b : Nat)
    (hinv : IdBound s b) (ht : ∀ t, eventTime? e = some t → b ≤ t) :
    IdBound (applyEvent s e) (newBound b e) ∧ b ≤ newBound b e := by
  have hble : b ≤ newBound b e := by
    unfold newBound
    cases he : eventTime? e with
    | none => exact Nat.le_refl b
    | some t => exact Nat.le_trans (ht t he) (Nat.le_succ t)
  refine ⟨?_, hble⟩
  rcases applyEvent_anns_cases s e with hsub | ⟨i, hci, hti, heq⟩
  · constructor
    · have hsub2 : (annTimes (applyEvent s e).anns).Sublist (annTimes s.anns) := by
        have h2 := hsub.map AnnId.time
        simpa [annTimes, List.map_map, Function.comp] using h2
      exact hinv.1.sublist hsub2
    · intro a ha
      have hmem : a.id ∈ (applyEvent s e).anns.map Ann.id := List.mem_map_of_mem _ ha
      have hmem2 : a.id ∈ s.anns.map Ann.id := hsub.subset hmem
      obtain ⟨a2, ha2, hid⟩ := List.mem_map.mp hmem2
      have h2 := hinv.2 a2 ha2
      have h3 : a.id.time = a2.id.time := by rw [hid]
      omega
  · have hbt : b ≤ i.time := ht i.time hti
    have hnb : newBound b e = i.time + 1 := by simp [newBound, hti]
    have htimes : annTimes (applyEvent s e).anns = annTimes s.anns ++ [i.time] := by
      have h2 := congrArg (List.map AnnId.time) heq
      simpa [annTimes, List.map_map, Function.comp] using h2
    constructor
    · rw [htimes, List.nodup_append]
      refine ⟨hinv.1, List.nodup_singleton _, ?_⟩
      intro x hx hx2
      have hxi : x = i.time := by simpa using hx2
      subst hxi
      obtain ⟨a2, ha2, hteq⟩ := List.mem_map.mp (by simpa [annTimes] using hx)
      have h2 := hinv.2 a2 ha2
      omega
    · intro a ha
      have hmem : a.id ∈ s.anns.map Ann.id ++ [i] := by
        rw [← heq]
        exact List.mem_map_of_mem _ ha
      rcases List.mem_append.mp hmem with hold | hnew
      · obtain ⟨a2, ha2, hid⟩ := List.mem_map.mp hold
        have h2 := hinv.2 a2 ha2
        have h3 : a.id.time = a2.id.time := by rw [hid]
        omega
      · have h4 : a.id = i := by simpa using hnew
        rw [h4, hnb]
        omega

/-- Running a whole sequence preserves the id/timestamp bound invariant,
provided the event timestamps are strictly increasing and start at or above
the current bound. -/
theorem IdBound_runEvents (es : List Event) :
    ∀ (s : CanvasState) (b : Nat), IdBound s b →
      (es.filterMap eventTime?).Pairwise (· < ·) →
      (∀ t ∈ es.filterMap eventTime?, b ≤ t) →
      IdBound (runEvents s es) (runBound b es) ∧ b ≤ runBound b es := by
  induction es with
  | nil =>
      intro s b hinv _ _
      exact ⟨hinv, Nat.le_refl b⟩
  | cons e rest ih =>
      intro s b hinv hpair hlb
      cases he : eventTime? e with
      | some t =>
          have hfm : (e :: rest).filterMap eventTime? = t :: rest.filterMap eventTime? := by
            simp [List.filterMap_cons, he]
          rw [hfm] at hpair hlb
          have hbt : b ≤ t := hlb t (List.mem_cons_self t _)
          have hstep := IdBound_applyEvent s e b hinv (by
            intro t2 ht2
            rw [he] at ht2
            injection ht2 with ht2
            omega)
          have hnb : newBound b e = t + 1 := by simp [newBound, he]
          have hrest := ih (applyEvent s e) (newBound b e) hstep.1
            (List.Pairwise.of_cons hpair)
            (by
              intro u hu
              have := (List.pairwise_cons.mp hpair).1 u hu
              omega)
          refine ⟨hrest.1, ?_⟩
          have h1 : b ≤ newBound b e := hstep.2
          have h2 : newBound b e ≤ runBound (newBound b e) rest := hrest.2
          have h3 : runBound b (e :: rest) = runBound (newBound b e) rest := rfl
          omega
      | none =>
          have hfm : (e :: rest).filterMap eventTime? = rest.filterMap eventTime? := by
            simp [List.filterMap_cons, he]
          rw [hfm] at hpair hlb
          have hstep := IdBound_applyEvent s e b hinv (by
            intro t2 ht2
            rw [he] at ht2
            exact absurd ht2 (by simp))
          have hnb : newBound b e = b := by simp [newBound, he]
          have hrest := ih (applyEvent s e) (newBound b e) hstep.1 hpair
            (by
              intro u hu
              have := hlb u hu
              omega)
          refine ⟨hrest.1, ?_⟩
          have h2 : newBound b e ≤ runBound (newBound b e) rest := hrest.2
          have h3 : runBound b (e :: rest) = runBound (newBound b e) rest := rfl
          omega

/-- The bound after a run stays below any value exceeding every event time. -/
theorem runBound_le (es : List Event) :
    ∀ (b T : Nat), b ≤ T → (∀ t ∈ es.filterMap eventTime?, t < T) →
      runBound b es ≤ T := by
  induction es with
  | nil => intro b T h _; exact h
  | cons e rest ih =>
      intro b T hb hlt
      have h3 : runBound b (e :: rest) = runBound (newBound b e) rest := rfl
      rw [h3]
      cases he : eventTime? e with
      | some t =>
          have hfm : (e :: rest).filterMap eventTime? = t :: rest.filterMap eventTime? := by
            simp [List.filterMap_cons, he]
          rw [hfm] at hlt
          have hnb : newBound b e = t + 1 := by simp [newBound, he]
          refine ih (newBound b e) T ?_ ?_
          · have := hlt t (List.mem_cons_self t _)
            omega
          · intro u hu
            exact hlt u (List.mem_cons_of_mem _ hu)
      | none =>
          have hfm : (e :: rest).filterMap eventTime? = rest.filterMap eventTime? := by
            simp [List.filterMap_cons, he]
          rw [hfm] at hlt
          have hnb : newBound b e = b := by simp [newBound, he]
          rw [hnb]
          exact ih b T hb hlt

/-- An id absent from the state and older than every upcoming event timestamp
can never reappear: fresh creations always carry a strictly newer timestamp. -/
theorem absent_stays (es : List Event) :
    ∀ (s : CanvasState) (i : AnnId),
      i ∉ s.anns.map Ann.id →
      (∀ t ∈ es.filterMap eventTime?, i.time < t) →
      i ∉ (runEvents s es).anns.map Ann.id := by
  induction es with
  | nil => intro s i hi _; exact hi
  | cons e rest ih =>
      intro s i hi ht
      have hrun : runEvents s (e :: rest) = runEvents (applyEvent s e) rest := rfl
      rw [hrun]
      refine ih (applyEvent s e) i ?_ ?_
      · rcases applyEvent_anns_cases s e with hsub | ⟨j, hcj, htj, heq⟩
        · intro hmem
          exact hi (hsub.subset hmem)
        · rw [heq]
          intro hmem
          rcases List.mem_append.mp hmem with hold | hnew
          · exact hi hold
          · have hij : i = j := by simpa using hnew
            have hjt : j.time ∈ (e :: rest).filterMap eventTime? := by
              simp [List.filterMap_cons, htj]
            have := ht j.time hjt
            rw [hij] at this
            omega
      · intro t htm
        refine ht t ?_
        cases he : eventTime? e <;> simp [List.filterMap_cons, he, htm]

/-! ## C4 — id uniqueness, stability, and non-reuse -/

/-- C4 (amended): provided the `Date.now()` timestamps of the events are
strictly increasing (as wall-clock ticks between user interactions; with equal
timestamps, same-type creations collide — see the counterexample), then from
the initial state: (1) in every reachable Annotation List state the ids are
pairwise distinct; (2) each step's id list is a sublist of the previous id
list extended by the freshly created ids — ids are never rewritten in place,
so an annotation keeps its id for its whole lifetime; (3) an id present at
some point and absent later (deleted) never reappears — the id of a deleted
annotation is never assigned to a later-created annotation. -/
theorem id_uniqueness (ops : List Event)
    (h : (ops.filterMap eventTime?).Pairwise (· < ·)) :
    (∀ p, p <+: ops → ((runEvents initState p).anns.map Ann.id).Nodup)
    ∧ (∀ p e, (p ++ [e]) <+: ops →
        ((runEvents initState (p ++ [e])).anns.map Ann.id).Sublist
          (((runEvents initState p).anns.map Ann.id)
            ++ createdIds (runEvents initState p) e))
    ∧ (∀ p q r, p <+: q → q <+: r → r <+: ops →
        ∀ i : AnnId, i ∈ (runEvents initState p).anns.map Ann.id →
          i ∉ (runEvents initState q).anns.map Ann.id →
          i ∉ (runEvents initState r).anns.map Ann.id) := by
  have hinit : IdBound initState 0 := by
    constructor
    · simp [initState, annTimes]
    · intro a ha
      simp [initState] at ha
  have hIdBound : ∀ p, p <+: ops → IdBound (runEvents initState p) (runBound 0 p) := by
    intro p hp
    obtain ⟨m, rfl⟩ := hp
    rw [List.filterMap_append] at h
    have hpair : (p.filterMap eventTime?).Pairwise (· < ·) :=
      ((List.pairwise_append.mp h).1)
    exact (IdBound_runEvents p initState 0 hinit hpair (fun t _ => Nat.zero_le t)).1
  refine ⟨?_, ?_, ?_⟩
  · intro p hp
    have hb := (hIdBound p hp).1
    have hrw : annTimes (runEvents initState p).anns
        = ((runEvents initState p).anns.map Ann.id).map AnnId.time := by
      simp [annTimes, List.map_map, Function.comp]
    rw [hrw] at hb
    exact hb.of_map _
  · intro p e _
    have hrun : runEvents initState (p ++ [e])
        = applyEvent (runEvents initState p) e := by
      simp [runEvents, List.foldl_append]
    rw [hrun]
    rcases applyEvent_anns_cases (runEvents initState p) e with hsub | ⟨i, hci, _, heq⟩
    · exact hsub.trans (List.sublist_append_left _ _)
    · rw [heq, hci]
  · intro p q r hpq hqr hro i hip hiq
    obtain ⟨m3, rfl⟩ := hro
    obtain ⟨m2, rfl⟩ := hqr
    obtain ⟨m1, rfl⟩ := hpq
    have hrun : runEvents initState ((p ++ m1) ++ m2)
        = runEvents (runEvents initState (p ++ m1)) m2 := by
      simp [runEvents, List.foldl_append]
    rw [hrun]
    have hBp := hIdBound p ⟨m1 ++ m2 ++ m3, by simp⟩
    have hitime : i.time < runBound 0 p := by
      obtain ⟨a, ha, hid⟩ := List.mem_map.mp hip
      have := hBp.2 a ha
      rw [hid] at this
      exact this
    refine absent_stays m2 (runEvents initState (p ++ m1)) i hiq ?_
    intro t htm
    rw [List.filterMap_append, List.filterMap_append, List.filterMap_append,
      List.append_assoc (p.filterMap eventTime? ++ m1.filterMap eventTime?)] at h
    have hsubl : ((p.filterMap eventTime?) ++ (m2.filterMap eventTime?)).Sublist
        ((p.filterMap eventTime? ++ m1.filterMap eventTime?)
          ++ (m2.filterMap eventTime? ++ m3.filterMap eventTime?)) := by
      refine List.Sublist.append ?_ ?_
      · exact List.sublist_append_left _ _
      · exact List.sublist_append_left _ _
    have hpair2 := h.sublist hsubl
    have hcross := (List.pairwise_append.mp hpair2).2.2
    have hBle : runBound 0 p ≤ t := by
      refine runBound_le p 0 t (Nat.zero_le t) ?_
      intro u hu
      exact hcross u hu t htm
    omega

/-- Witness for `id_uniqueness`: two committed rect drags with increasing
timestamps end in a state with distinct ids. -/
theorem id_uniqueness_witness :
    ((runEvents initState
        (dragEvents Tool.rect ⟨0, 0⟩ [⟨20, 20⟩] none 1 7
          ++ dragEvents Tool.rect ⟨0, 0⟩ [⟨30, 30⟩] none 8 14)).anns.map Ann.id).Nodup := by
  have h := (id_uniqueness
      (dragEvents Tool.rect ⟨0, 0⟩ [⟨20, 20⟩] none 1 7
        ++ dragEvents Tool.rect ⟨0, 0⟩ [⟨30, 30⟩] none 8 14)
      (by decide)).1
      (dragEvents Tool.rect ⟨0, 0⟩ [⟨20, 20⟩] none 1 7
        ++ dragEvents Tool.rect ⟨0, 0⟩ [⟨30, 30⟩] none 8 14)
      (List.prefix_refl _)
  exact h

/-- C4 (counterexample): two rect drags whose pointer-up events carry the same
`Date.now()` value produce two annotations with the same id — reachable-state
ids are not pairwise distinct without the increasing-timestamp assumption. -/
theorem id_uniqueness_counterexample :
    ¬ ((runEvents initState
        (dragEvents Tool.rect ⟨0, 0⟩ [⟨20, 20⟩] none 1 7
          ++ dragEvents Tool.rect ⟨0, 0⟩ [⟨30, 30⟩] none 8 7)).anns.map Ann.id).Nodup := by
  have hsplit : runEvents initState
      (dragEvents Tool.rect ⟨0, 0⟩ [⟨20, 20⟩] none 1 7
        ++ dragEvents Tool.rect ⟨0, 0⟩ [⟨30, 30⟩] none 8 7)
      = runEvents (runEvents initState (dragEvents Tool.rect ⟨0, 0⟩ [⟨20, 20⟩] none 1 7))
          (dragEvents Tool.rect ⟨0, 0⟩ [⟨30, 30⟩] none 8 7) := by
    simp [runEvents, List.foldl_append]
  rw [hsplit, runDrag_rect, runDrag_rect]
  have hp1 : rectPasses ⟨0, 0⟩ [⟨20, 20⟩] = true := by
    norm_num [rectPasses, jsAbs]
  have hp2 : rectPasses ⟨0, 0⟩ [⟨30, 30⟩] = true := by
    norm_num [rectPasses, jsAbs]
  rw [hp1, hp2]
  simp [rectAnnOf, initState]

end Annotator
